import Mathlib

/-!
Shallow embedding of `performer_selector` (src/main.py) and verification of
its specification claims.

Python strings are modelled as Lean `String`; filesystem interaction is
modelled by an abstract `FS` record supplying the results of the OS calls the
program makes (`os.path.isdir`, `os.listdir`, `os.readlink`,
`Path.exists`/`Path.is_dir`).  Printed diagnostics are collected in
`List String` output components.  Python exceptions that can escape a
function are modelled with `Except`.
-/

set_option autoImplicit false

namespace PerformerSel

/-- Python `string.ascii_letters` (lowercase followed by uppercase). -/
def ascii_letters : List Char :=
  "abcdefghijklmnopqrstuvwxyzABCDEFGHIJKLMNOPQRSTUVWXYZ".toList

/-- Python `string.digits`. -/
def ascii_digits : List Char := "0123456789".toList

/-- The selector's construction-time state (`PerformerSelector.__init__`):
the configured root directories, the return-mode flag, the allowed character
set and the length limit.  Python's `set(...)` is modelled as a `List Char`
used only through membership.
-/
structure PerformerSelector where
  performers_root_directories : List String
  return_full_path : Bool
  allowed_characters : List Char
  performer_length_limit : Nat
deriving DecidableEq

/-- Embedded `PerformerSelector.__init__`: stores the arguments and the two validation
constants `string.ascii_letters + string.digits + " .()_[]-"` and `100`. -/
def PerformerSelector.init (performers_root_directories : List String)
    (return_full_path : Bool) : PerformerSelector :=
  { performers_root_directories := performers_root_directories
    return_full_path := return_full_path
    allowed_characters := ascii_letters ++ ascii_digits ++ " .()_[]-".toList
    performer_length_limit := 100 }

/-- Embedded `PerformerSelector._is_valid_performer_name`: returns the boolean result
together with the list of printed error messages (at most one). -/
def is_valid_performer_name (sel : PerformerSelector) (name : String) :
    Bool × List String :=
  if name.isEmpty then
    (false, ["Error: Please enter a performer name."])
  else if !(name.toList.all (fun char => sel.allowed_characters.contains char)) then
    (false, ["Error: Performer name contains invalid characters."])
  else if name.length > sel.performer_length_limit then
    (false, ["Error: Performer name is too long. Please enter a shorter name."])
  else
    (true, [])

/-- The two kinds of exception `os.listdir` can raise that the code catches:
`PermissionError` and any other `OSError` (carrying its message text). -/
inductive OSErrKind where
  | permission
  | os (msg : String)
deriving DecidableEq

/-- Exceptions that can escape the embedded functions.  Only the
`ValueError` raised by `_get_direct_subfolders` matters: it is not an
`OSError`, so neither `except` clause catches it. -/
inductive PyExc where
  | valueError (msg : String)
deriving DecidableEq

/-- The abstract filesystem: results of the OS calls the program makes.
`listdir` either returns the entry names or raises; `readlink` returns the
link target on success and `none` when `os.readlink` raises `OSError`. -/
structure FS where
  isDir : String → Bool
  listdir : String → Except OSErrKind (List String)
  readlink : String → Option String
  pathExists : String → Bool

/-- Embedded `os.path.join(root, name)` / `Path(root, name)` rendered as a string,
for the separator-joined paths this program builds. -/
def pathJoin (root name : String) : String := root ++ "/" ++ name

/-- Embedded `PurePath.name` for the paths this program builds: the part of the
string after the last separator. -/
def pathName (s : String) : String :=
  String.mk ((s.toList.reverse.takeWhile (fun c => c ≠ '/')).reverse)

/-- Embedded `PerformerSelector._is_junction`: `bool(os.readlink(path))`, with
`OSError` caught and turned into `False`.  A successful `readlink` yields a
junction verdict iff the returned target string is truthy (non-empty). -/
def is_junction (fs : FS) (path : String) : Bool :=
  match fs.readlink path with
  | some target => !target.isEmpty
  | none => false

/-- Embedded `PerformerSelector._get_direct_subfolders`: returns the normal result
or the escaping exception, paired with the printed diagnostics.  The
`raise ValueError` for a non-directory root sits inside the `try`, but the
handlers catch only `PermissionError` and `OSError`, so it escapes. -/
def get_direct_subfolders (fs : FS) (root_path : String) :
    Except PyExc (List String) × List String :=
  if !fs.isDir root_path then
    (Except.error (PyExc.valueError
      ("The provided path '" ++ root_path ++ "' is not a valid directory.")), [])
  else
    match fs.listdir root_path with
    | Except.ok names =>
        (Except.ok (names.filter (fun name =>
          fs.isDir (pathJoin root_path name)
            && !is_junction fs (pathJoin root_path name))), [])
    | Except.error OSErrKind.permission =>
        (Except.ok [], ["Permission error accessing '" ++ root_path ++ "'"])
    | Except.error (OSErrKind.os e) =>
        (Except.ok [], ["Error accessing '" ++ root_path ++ "': " ++ e])

/-- A `Path(root_dir, performer)` object built by `get_performer_paths`:
`root` is the root directory, `name` the subfolder name (its `.name`). -/
structure PEntry where
  root : String
  name : String
deriving DecidableEq

/-- The string `str(performer)` for an entry built as `Path(root_dir, performer)`. -/
def PEntry.toStr (e : PEntry) : String := pathJoin e.root e.name

/-- The loop body of `PerformerSelector.get_performer_paths`, over the
remaining root directories.  A `ValueError` escaping
`_get_direct_subfolders` aborts the loop and escapes here too. -/
def get_performer_paths_from (fs : FS) :
    List String → Except PyExc (List PEntry) × List String
  | [] => (Except.ok [], [])
  | root_dir :: rest =>
    match get_direct_subfolders fs root_dir with
    | (Except.error e, out) => (Except.error e, out)
    | (Except.ok performers, out) =>
      match get_performer_paths_from fs rest with
      | (Except.error e, out2) => (Except.error e, out ++ out2)
      | (Except.ok entries, out2) =>
        (Except.ok (performers.map (fun performer => PEntry.mk root_dir performer)
          ++ entries), out ++ out2)

/-- Embedded `PerformerSelector.get_performer_paths`. -/
def get_performer_paths (fs : FS) (sel : PerformerSelector) :
    Except PyExc (List PEntry) × List String :=
  get_performer_paths_from fs sel.performers_root_directories

/-- Assignment `d[k] = v` on a Python `dict` modelled as an association
list: overwrite the binding in place if the key is present, else append. -/
def dictInsert : List (String × String) → String → String → List (String × String)
  | [], k, v => [(k, v)]
  | (k', v') :: rest, k, v =>
    if k' == k then (k, v) :: rest else (k', v') :: dictInsert rest k v

/-- Embedded `d.get(k)`: the value bound to `k`, `None` when the key is absent (keys
in a `dict` are unique, so the first binding found is the binding). -/
def dictGet : List (String × String) → String → Option String
  | [], _ => none
  | (k', v') :: rest, k => if k' == k then some v' else dictGet rest k

/-- The dict comprehension over `performers_paths` that maps each
`performer.name` to `str(performer)`: entries are inserted in iteration
order, later keys overwriting earlier ones. -/
def buildPerformersDict (performers_paths : List PEntry) : List (String × String) :=
  performers_paths.foldl (fun d performer => dictInsert d performer.name performer.toStr) []

/-- Python `str.strip()` whitespace test (for the ASCII whitespace the
program can meet). -/
def isPySpace (c : Char) : Bool :=
  c == ' ' || c == '\t' || c == '\n' || c == '\r' || c == '\x0b' || c == '\x0c'

/-- Python `str.strip()`: drop leading and trailing whitespace. -/
def pyStrip (s : String) : String :=
  String.mk (((s.toList.dropWhile isPySpace).reverse.dropWhile isPySpace).reverse)

/-- One interaction at the prompt: either a line of input is submitted or
the user interrupts (Ctrl-C), raising `KeyboardInterrupt` inside the loop. -/
inductive UserEvent where
  | input (s : String)
  | interrupt
deriving DecidableEq

/-- What one pass of the `while True` body does with its event. -/
inductive IterResult where
  | ret (value : String)
  | exit1
  | again
deriving DecidableEq

/-- One pass of the `while True` body of `choose_performer`, given the
prebuilt name-to-path dict and the interaction event, returning the control
action and the printed messages.  `if chosen_path:` is Python truthiness:
`None` and the empty string both take the `else` branch. -/
def choose_iteration (fs : FS) (sel : PerformerSelector)
    (performers_dict : List (String × String)) (ev : UserEvent) :
    IterResult × List String :=
  match ev with
  | UserEvent.interrupt => (IterResult.exit1, ["\nExiting..."])
  | UserEvent.input s =>
    let user_input := pyStrip s
    match is_valid_performer_name sel user_input with
    | (false, msgs) => (IterResult.again, msgs)
    | (true, _) =>
      match dictGet performers_dict user_input with
      | none => (IterResult.again, ["Error: Invalid choice. Please choose a valid performer."])
      | some chosen_path =>
        if chosen_path.isEmpty then
          (IterResult.again, ["Error: Invalid choice. Please choose a valid performer."])
        else if fs.pathExists chosen_path && fs.isDir chosen_path then
          (IterResult.ret (if sel.return_full_path then chosen_path
                           else pathName chosen_path), [])
        else
          (IterResult.again, ["Error: The selected performer directory does not exist."])

/-- How a run of the loop ends: a normal return, `exit(1)` after an
interrupt, or the supplied event trace ran out while the loop was still
going (the real loop would block at the prompt for more input). -/
inductive Outcome where
  | accepted (value : String)
  | exited (code : Nat)
  | pending
deriving DecidableEq

/-- The `while True` loop of `choose_performer`, driven by a finite trace
of interaction events; accumulates all printed messages. -/
def choose_loop (fs : FS) (sel : PerformerSelector)
    (performers_dict : List (String × String)) :
    List UserEvent → Outcome × List String
  | [] => (Outcome.pending, [])
  | ev :: rest =>
    match choose_iteration fs sel performers_dict ev with
    | (IterResult.ret v, out) => (Outcome.accepted v, out)
    | (IterResult.exit1, out) => (Outcome.exited 1, out)
    | (IterResult.again, out) =>
      match choose_loop fs sel performers_dict rest with
      | (outcome, out2) => (outcome, out ++ out2)

/-- Embedded `PerformerSelector.choose_performer`: builds the name-to-path dict from
the given entries, then runs the interactive loop. -/
def choose_performer (fs : FS) (sel : PerformerSelector)
    (performers_paths : List PEntry) (events : List UserEvent) :
    Outcome × List String :=
  choose_loop fs sel (buildPerformersDict performers_paths) events

/-- The names a successful scan of one root yields (`[]` when the escaping
`ValueError` aborts it); used to state what `get_performer_paths` collects. -/
def subfolders_of (fs : FS) (root_path : String) : List String :=
  match (get_direct_subfolders fs root_path).1 with
  | Except.ok names => names
  | Except.error _ => []

/-- The method `get_performer_paths` as a call on explicit selector state, returning the
post-call state: the source method assigns no attribute of `self`, so the
faithful translation passes the state through unchanged. -/
def get_performer_paths_st (sel : PerformerSelector) (fs : FS) :
    (Except PyExc (List PEntry) × List String) × PerformerSelector :=
  (get_performer_paths fs sel, sel)

/-- The method `choose_performer` as a call on explicit selector state, returning the
post-call state: the source method assigns no attribute of `self`. -/
def choose_performer_st (sel : PerformerSelector) (fs : FS)
    (performers_paths : List PEntry) (events : List UserEvent) :
    ((Outcome × List String) × PerformerSelector) :=
  (choose_performer fs sel performers_paths events, sel)

/-- Concrete filesystem: roots `R1` (containing `Alice`) and `R2`
(containing `Bob`), no links. -/
def exampleFS : FS :=
  { isDir := fun p => p ∈ (["R1", "R2", "R1/Alice", "R2/Bob"] : List String)
    listdir := fun r =>
      if r = "R1" then Except.ok ["Alice"]
      else if r = "R2" then Except.ok ["Bob"]
      else Except.error (OSErrKind.os "boom")
    readlink := fun _ => none
    pathExists := fun p => p ∈ (["R1", "R2", "R1/Alice", "R2/Bob"] : List String) }

/-- Concrete filesystem on which nothing is a directory. -/
def notDirFS : FS :=
  { isDir := fun _ => false
    listdir := fun _ => Except.error (OSErrKind.os "boom")
    readlink := fun _ => none
    pathExists := fun _ => false }

/-- Concrete filesystem: root `R` with entries `A` (real directory),
`B` (a junction that resolves to a directory) and `C` (not a directory). -/
def junctionFS : FS :=
  { isDir := fun p => p ∈ (["R", "R/A", "R/B"] : List String)
    listdir := fun r => if r = "R" then Except.ok ["A", "B", "C"]
      else Except.error (OSErrKind.os "boom")
    readlink := fun p => if p = "R/B" then some "target" else none
    pathExists := fun p => p ∈ (["R", "R/A", "R/B"] : List String) }

/-- Concrete filesystem: root `P` is a directory whose listing raises
`PermissionError`; root `R1` is as in `exampleFS`. -/
def permFS : FS :=
  { isDir := fun p => p ∈ (["P", "R1", "R1/Alice"] : List String)
    listdir := fun r =>
      if r = "R1" then Except.ok ["Alice"]
      else Except.error OSErrKind.permission
    readlink := fun _ => none
    pathExists := fun p => p ∈ (["P", "R1", "R1/Alice"] : List String) }

/-! ## Validation -/

/-- A non-empty string is not `isEmpty`. -/
theorem isEmpty_false_of_ne (name : String) (h : name ≠ "") :
    name.isEmpty = false := by
  rw [Bool.eq_false_iff]
  intro hx
  exact h ((String.isEmpty_iff name).1 hx)

/-- Evaluating `_is_valid_performer_name` on the empty string. -/
theorem is_valid_init_empty (roots : List String) (rfp : Bool) :
    is_valid_performer_name (PerformerSelector.init roots rfp) ""
      = (false, ["Error: Please enter a performer name."]) := rfl

/-- Evaluating `_is_valid_performer_name` when some character is outside the allowed
set: the invalid-characters message alone, regardless of length. -/
theorem is_valid_init_badchar (roots : List String) (rfp : Bool) (name : String)
    (h : ∃ c ∈ name.toList, c ∉ ascii_letters ++ ascii_digits ++ " .()_[]-".toList) :
    is_valid_performer_name (PerformerSelector.init roots rfp) name
      = (false, ["Error: Performer name contains invalid characters."]) := by
  obtain ⟨c, hc, hcn⟩ := h
  have h1 : name ≠ "" := by
    intro h0
    subst h0
    simp at hc
  have he : name.isEmpty = false := isEmpty_false_of_ne name h1
  have hno : ¬ ∀ x ∈ name.data,
      x ∈ (PerformerSelector.init roots rfp).allowed_characters := by
    intro hall
    exact hcn (hall c hc)
  unfold is_valid_performer_name
  simp [he, hno]

/-- Evaluating `_is_valid_performer_name` when the name is non-empty and clean but
longer than 100 characters: the too-long message. -/
theorem is_valid_init_toolong (roots : List String) (rfp : Bool) (name : String)
    (h1 : name ≠ "")
    (h2 : ∀ c ∈ name.toList, c ∈ ascii_letters ++ ascii_digits ++ " .()_[]-".toList)
    (h3 : name.length > 100) :
    is_valid_performer_name (PerformerSelector.init roots rfp) name
      = (false, ["Error: Performer name is too long. Please enter a shorter name."]) := by
  have he : name.isEmpty = false := isEmpty_false_of_ne name h1
  have hyes : ∀ x ∈ name.data,
      x ∈ (PerformerSelector.init roots rfp).allowed_characters :=
    fun x hx => h2 x hx
  have hl : (PerformerSelector.init roots rfp).performer_length_limit < name.length := h3
  unfold is_valid_performer_name
  simp [he, hyes, hl]
  exact hyes

/-- Evaluating `_is_valid_performer_name` on a valid name: accepted, nothing printed. -/
theorem is_valid_init_ok (roots : List String) (rfp : Bool) (name : String)
    (h1 : name ≠ "")
    (h2 : ∀ c ∈ name.toList, c ∈ ascii_letters ++ ascii_digits ++ " .()_[]-".toList)
    (h3 : name.length ≤ 100) :
    is_valid_performer_name (PerformerSelector.init roots rfp) name = (true, []) := by
  have he : name.isEmpty = false := isEmpty_false_of_ne name h1
  have hyes : ∀ x ∈ name.data,
      x ∈ (PerformerSelector.init roots rfp).allowed_characters :=
    fun x hx => h2 x hx
  have hl : ¬ (PerformerSelector.init roots rfp).performer_length_limit < name.length := by
    have h100 : (PerformerSelector.init roots rfp).performer_length_limit = 100 := rfl
    omega
  unfold is_valid_performer_name
  simp [he, hyes, hl]
  exact hyes

/-- C2: `_is_valid_performer_name` (on a selector built by `__init__`)
accepts a name iff it is non-empty, every character is an ASCII letter, a
digit, a space or one of `.()_[]-`, and the length is at most 100; in
particular it accepts a 100-character valid string, rejects a 101-character
valid string, rejects the empty string, and rejects any string
containing `@`. -/
theorem C2_is_valid_name_iff :
    ∀ (roots : List String) (rfp : Bool),
      (∀ name : String,
        ((is_valid_performer_name (PerformerSelector.init roots rfp) name).1 = true ↔
          (name ≠ "" ∧
            (∀ c ∈ name.toList,
              c ∈ ascii_letters ++ ascii_digits ++ " .()_[]-".toList) ∧
            name.length ≤ 100))) ∧
      (is_valid_performer_name (PerformerSelector.init roots rfp)
          (String.mk (List.replicate 100 'a'))).1 = true ∧
      (is_valid_performer_name (PerformerSelector.init roots rfp)
          (String.mk (List.replicate 101 'a'))).1 = false ∧
      (is_valid_performer_name (PerformerSelector.init roots rfp) "").1 = false ∧
      (∀ s : String, '@' ∈ s.toList →
        (is_valid_performer_name (PerformerSelector.init roots rfp) s).1 = false) := by
  intro roots rfp
  have key : ∀ name : String,
      (is_valid_performer_name (PerformerSelector.init roots rfp) name).1 = true ↔
        (name ≠ "" ∧
          (∀ c ∈ name.toList,
            c ∈ ascii_letters ++ ascii_digits ++ " .()_[]-".toList) ∧
          name.length ≤ 100) := by
    intro name
    constructor
    · intro hb
      by_cases h1 : name = ""
      · subst h1
        rw [is_valid_init_empty] at hb
        simp at hb
      · by_cases h2 : ∀ c ∈ name.toList,
          c ∈ ascii_letters ++ ascii_digits ++ " .()_[]-".toList
        · by_cases h3 : name.length ≤ 100
          · exact ⟨h1, h2, h3⟩
          · rw [is_valid_init_toolong roots rfp name h1 h2 (by omega)] at hb
            simp at hb
        · push_neg at h2
          rw [is_valid_init_badchar roots rfp name h2] at hb
          simp at hb
    · intro h
      obtain ⟨h1, h2, h3⟩ := h
      rw [is_valid_init_ok roots rfp name h1 h2 h3]
  refine ⟨key, ?_, ?_, ?_, ?_⟩
  · refine (key _).2 ⟨by decide, ?_, by decide⟩
    intro c hc
    have hc2 : c ∈ List.replicate 100 'a' := hc
    have hce := List.eq_of_mem_replicate hc2
    subst hce
    decide
  · cases hb : (is_valid_performer_name (PerformerSelector.init roots rfp)
        (String.mk (List.replicate 101 'a'))).1 with
    | false => rfl
    | true =>
      exfalso
      have h := (key _).1 hb
      obtain ⟨-, -, hle⟩ := h
      have hlen : (String.mk (List.replicate 101 'a')).length = 101 := by decide
      omega
  · rfl
  · intro s hs
    cases hb : (is_valid_performer_name (PerformerSelector.init roots rfp) s).1 with
    | false => rfl
    | true =>
      exfalso
      have h := (key s).1 hb
      have hin := h.2.1 '@' hs
      exact (by decide :
        ('@' : Char) ∉ ascii_letters ++ ascii_digits ++ " .()_[]-".toList) hin

/-- Witness for C2 at concrete inputs. -/
theorem C2_is_valid_name_iff_witness :
    (is_valid_performer_name (PerformerSelector.init [] true) "ab@").1 = false ∧
    (is_valid_performer_name (PerformerSelector.init [] true) "Sam").1 = true :=
  ⟨(C2_is_valid_name_iff [] true).2.2.2.2 "ab@" (by decide),
   ((C2_is_valid_name_iff [] true).1 "Sam").2 (by decide)⟩

/-- Python `str.strip()` of an all-whitespace string is the empty string. -/
theorem pyStrip_eq_empty (s : String) (h : s.toList.all isPySpace = true) :
    pyStrip s = "" := by
  unfold pyStrip
  have h1 : s.toList.dropWhile isPySpace = [] :=
    List.dropWhile_eq_nil_iff.2 (List.all_eq_true.1 h)
  rw [h1]
  rfl

/-- C3: the validation checks run in the order empty-string,
invalid-character, over-length, and only the first failing check's message
is printed; a disallowed character wins over excess length, and an
all-whitespace submission is stripped to the empty string and rejected with
the empty-name message by the loop body. -/
theorem C3_validation_order :
    ∀ (roots : List String) (rfp : Bool),
      (∀ name : String, name = "" →
        is_valid_performer_name (PerformerSelector.init roots rfp) name
          = (false, ["Error: Please enter a performer name."])) ∧
      (∀ name : String,
        (∃ c ∈ name.toList,
          c ∉ ascii_letters ++ ascii_digits ++ " .()_[]-".toList) →
        is_valid_performer_name (PerformerSelector.init roots rfp) name
          = (false, ["Error: Performer name contains invalid characters."])) ∧
      (∀ name : String, name ≠ "" →
        (∀ c ∈ name.toList,
          c ∈ ascii_letters ++ ascii_digits ++ " .()_[]-".toList) →
        name.length > 100 →
        is_valid_performer_name (PerformerSelector.init roots rfp) name
          = (false, ["Error: Performer name is too long. Please enter a shorter name."])) ∧
      (∀ (fs : FS) (d : List (String × String)) (s : String),
        s.toList.all isPySpace = true →
        choose_iteration fs (PerformerSelector.init roots rfp) d (UserEvent.input s)
          = (IterResult.again, ["Error: Please enter a performer name."])) := by
  intro roots rfp
  refine ⟨?_, ?_, ?_, ?_⟩
  · intro name h
    subst h
    rfl
  · intro name hc
    exact is_valid_init_badchar roots rfp name hc
  · intro name h1 h2 h3
    exact is_valid_init_toolong roots rfp name h1 h2 h3
  · intro fs d s hsp
    have h0 : pyStrip s = "" := pyStrip_eq_empty s hsp
    simp only [choose_iteration, h0]
    rfl

/-- Witness for C3: a 101-character string of `@` gets only the
invalid-characters message, and an all-space submission gets the empty-name
message from the loop body. -/
theorem C3_validation_order_witness :
    is_valid_performer_name (PerformerSelector.init [] true)
        (String.mk (List.replicate 101 '@'))
      = (false, ["Error: Performer name contains invalid characters."]) ∧
    choose_iteration exampleFS (PerformerSelector.init [] true) []
        (UserEvent.input "   ")
      = (IterResult.again, ["Error: Please enter a performer name."]) :=
  ⟨(C3_validation_order [] true).2.1 (String.mk (List.replicate 101 '@'))
      ⟨'@', by decide, by decide⟩,
   (C3_validation_order [] true).2.2.2 exampleFS [] "   " (by decide)⟩

/-! ## The name-to-path dict -/

/-- Lookup after a `dict` assignment: the assigned key now maps to the new
value; every other key is untouched. -/
theorem dictGet_insert (d : List (String × String)) (k v k' : String) :
    dictGet (dictInsert d k v) k' = if k' = k then some v else dictGet d k' := by
  induction d with
  | nil =>
    by_cases h : k' = k
    · subst h; simp [dictInsert, dictGet]
    · simp [dictInsert, dictGet, h, Ne.symm h]
  | cons hd tl ih =>
    obtain ⟨a, b⟩ := hd
    by_cases hak : a = k
    · subst hak
      by_cases h : k' = a
      · subst h; simp [dictInsert, dictGet]
      · simp [dictInsert, dictGet, h, Ne.symm h]
    · by_cases h1 : a = k'
      · subst h1
        simp [dictInsert, dictGet, hak, Ne.symm hak, ih]
      · by_cases h2 : k' = k
        · subst h2; simp [dictInsert, dictGet, hak, Ne.symm h1, ih]
        · simp [dictInsert, dictGet, hak, Ne.symm h1, h2, ih]

/-- Lookup in the dict built by folding assignments over the entries, for
any starting dict: the last entry with the looked-up base name wins. -/
theorem dictGet_build_from (l : List PEntry) (k : String) :
    ∀ d : List (String × String),
      dictGet (l.foldl (fun d e => dictInsert d e.name e.toStr) d) k =
        (match (l.filter (fun e => e.name == k)).getLast? with
         | some e => some e.toStr
         | none => dictGet d k) := by
  induction l with
  | nil => intro d; simp
  | cons e rest ih =>
    intro d
    simp only [List.foldl_cons]
    rw [ih]
    by_cases hek : e.name = k
    · cases hrf : rest.filter (fun x => x.name == k) with
      | nil => simp [List.filter_cons, hek, hrf, dictGet_insert]
      | cons c t =>
        simp only [List.filter_cons, hek, hrf]
        cases hgl : (c :: t).getLast? with
        | none => exact absurd (List.getLast?_eq_none_iff.1 hgl) (by simp)
        | some x => simp [hek, hrf, hgl]
    · cases hrf : rest.filter (fun x => x.name == k) with
      | nil => simp [List.filter_cons, hek, hrf, dictGet_insert, Ne.symm hek]
      | cons c t =>
        simp only [List.filter_cons, hek, hrf]
        cases hgl : (c :: t).getLast? with
        | none => exact absurd (List.getLast?_eq_none_iff.1 hgl) (by simp)
        | some x => simp [hek, hrf, hgl]

/-- Lookup in `choose_performer`'s dict: the path of the last entry whose
base name matches, if any. -/
theorem dictGet_build (l : List PEntry) (k : String) :
    dictGet (buildPerformersDict l) k =
      ((l.filter (fun e => e.name == k)).getLast?).map PEntry.toStr := by
  have h := dictGet_build_from l k []
  unfold buildPerformersDict
  rw [h]
  cases (l.filter (fun e => e.name == k)).getLast? <;> simp [dictGet]

/-- The keys present after a `dict` assignment. -/
theorem mem_keys_insert (d : List (String × String)) (k v x : String) :
    x ∈ (dictInsert d k v).map Prod.fst ↔ x ∈ d.map Prod.fst ∨ x = k := by
  induction d with
  | nil => simp [dictInsert]
  | cons hd tl ih =>
    obtain ⟨a, b⟩ := hd
    by_cases hak : a = k
    · subst hak
      simp [dictInsert]
      tauto
    · simp [dictInsert, hak, ih]
      tauto

/-- A `dict` assignment keeps the keys pairwise distinct. -/
theorem keys_nodup_insert (d : List (String × String)) (k v : String)
    (h : (d.map Prod.fst).Nodup) : ((dictInsert d k v).map Prod.fst).Nodup := by
  induction d with
  | nil => simp [dictInsert]
  | cons hd tl ih =>
    obtain ⟨a, b⟩ := hd
    simp only [List.map_cons, List.nodup_cons] at h
    obtain ⟨ha, hnd⟩ := h
    by_cases hak : a = k
    · subst hak
      have hrw : dictInsert ((a, b) :: tl) a v = (a, v) :: tl := by simp [dictInsert]
      rw [hrw]
      simp only [List.map_cons, List.nodup_cons]
      exact ⟨ha, hnd⟩
    · simp only [dictInsert, beq_iff_eq, hak, if_false, List.map_cons, List.nodup_cons]
      refine ⟨?_, ih hnd⟩
      rw [mem_keys_insert]
      rintro (hin | heq)
      · exact ha hin
      · exact hak heq

/-- The dict built by `choose_performer` has pairwise-distinct keys. -/
theorem buildDict_keys_nodup (l : List PEntry) :
    ((buildPerformersDict l).map Prod.fst).Nodup := by
  suffices h : ∀ d : List (String × String), (d.map Prod.fst).Nodup →
      (((l.foldl (fun d e => dictInsert d e.name e.toStr) d)).map Prod.fst).Nodup by
    exact h [] (by simp)
  induction l with
  | nil => intro d hd; simpa
  | cons e rest ih =>
    intro d hd
    simp only [List.foldl_cons]
    exact ih _ (keys_nodup_insert d e.name e.toStr hd)

/-- In a dict with pairwise-distinct keys, a key that is bound occurs in
exactly one binding. -/
theorem dict_filter_length_one (d : List (String × String)) (k : String)
    (hnd : (d.map Prod.fst).Nodup) (v : String) (h : dictGet d k = some v) :
    (d.filter (fun p => p.1 == k)).length = 1 := by
  induction d with
  | nil => simp [dictGet] at h
  | cons hd tl ih =>
    obtain ⟨a, b⟩ := hd
    simp only [List.map_cons, List.nodup_cons] at hnd
    by_cases hak : a = k
    · subst hak
      have htl : tl.filter (fun p => p.1 == a) = [] := by
        rw [List.filter_eq_nil_iff]
        intro p hp hpa
        exact hnd.1 (List.mem_map.2 ⟨p, hp, by simpa using hpa⟩)
      simp [List.filter_cons, htl]
    · have h2 : dictGet tl k = some v := by
        simpa [dictGet, hak] using h
      simp only [List.filter_cons]
      simp [hak]
      exact ih hnd.2 h2

/-- C4: when several collected entries share a base name, the dict built by
`choose_performer` keeps exactly one binding for that name, and its path is
the one of the entry processed last in input order. -/
theorem C4_last_write_wins :
    ∀ (performers_paths : List PEntry) (k : String),
      performers_paths.filter (fun e => e.name == k) ≠ [] →
      ((buildPerformersDict performers_paths).filter (fun p => p.1 == k)).length = 1 ∧
      dictGet (buildPerformersDict performers_paths) k =
        ((performers_paths.filter (fun e => e.name == k)).getLast?).map PEntry.toStr := by
  intro l k hne
  have hget := dictGet_build l k
  obtain ⟨e, he⟩ : ∃ e, (l.filter (fun e2 => e2.name == k)).getLast? = some e := by
    cases hx : (l.filter (fun e2 => e2.name == k)).getLast? with
    | none => exact absurd (List.getLast?_eq_none_iff.1 hx) hne
    | some e => exact ⟨e, rfl⟩
  refine ⟨?_, hget⟩
  apply dict_filter_length_one _ k (buildDict_keys_nodup l) e.toStr
  rw [hget, he]
  rfl

/-- Witness for C4: two roots both containing `Sam`; the mapping keeps one
binding, the path from the root processed last. -/
theorem C4_last_write_wins_witness :
    ((buildPerformersDict [PEntry.mk "R1" "Sam", PEntry.mk "R2" "Sam"]).filter
        (fun p => p.1 == "Sam")).length = 1 ∧
    dictGet (buildPerformersDict [PEntry.mk "R1" "Sam", PEntry.mk "R2" "Sam"]) "Sam"
      = some "R2/Sam" := by
  have h := C4_last_write_wins [PEntry.mk "R1" "Sam", PEntry.mk "R2" "Sam"] "Sam"
    (by decide)
  exact ⟨h.1, h.2.trans (by decide)⟩

/-! ## The scanner -/

/-- A successful `_get_direct_subfolders` run: the listed names filtered to
real (non-junction) directories, nothing printed. -/
theorem get_direct_subfolders_ok (fs : FS) (r : String) (hd : fs.isDir r = true)
    (names : List String) (he : fs.listdir r = Except.ok names) :
    get_direct_subfolders fs r = (Except.ok (names.filter (fun n =>
      fs.isDir (pathJoin r n) && !is_junction fs (pathJoin r n))), []) := by
  unfold get_direct_subfolders
  simp [hd, he]

/-- A root whose listing raises contributes no names. -/
theorem subfolders_of_error (fs : FS) (r : String) (hd : fs.isDir r = true)
    (err : OSErrKind) (he : fs.listdir r = Except.error err) :
    subfolders_of fs r = [] := by
  unfold subfolders_of get_direct_subfolders
  cases err <;> simp [hd, he]

/-- What a successful run of the scan loop collects: the subfolders of each
root in the order given, each paired with its root. -/
theorem get_performer_paths_from_ok (fs : FS) :
    ∀ (roots : List String) (l : List PEntry),
      (get_performer_paths_from fs roots).1 = Except.ok l →
      l = roots.flatMap (fun root_dir =>
        (subfolders_of fs root_dir).map (fun n => PEntry.mk root_dir n)) := by
  intro roots
  induction roots with
  | nil =>
    intro l h
    simp only [get_performer_paths_from] at h
    simp at h
    simp [h.symm]
  | cons r rest ih =>
    intro l h
    cases hg : get_direct_subfolders fs r with
    | mk res out =>
      cases res with
      | error e => simp only [get_performer_paths_from, hg] at h; simp at h
      | ok performers =>
        cases hr : get_performer_paths_from fs rest with
        | mk res2 out2 =>
          cases res2 with
          | error e => simp only [get_performer_paths_from, hg, hr] at h; simp at h
          | ok entries =>
            simp only [get_performer_paths_from, hg, hr] at h
            simp at h
            have hs : subfolders_of fs r = performers := by
              unfold subfolders_of
              rw [hg]
            have hrest : entries = rest.flatMap (fun root_dir =>
                (subfolders_of fs root_dir).map (fun n => PEntry.mk root_dir n)) := by
              apply ih
              rw [hr]
            rw [List.flatMap_cons, hs, ← hrest, ← h]

/-- When every configured root is a directory, the scan loop completes
normally (only the non-directory `ValueError` can escape it). -/
theorem from_ok_of_isDir (fs : FS) :
    ∀ roots : List String, (∀ r ∈ roots, fs.isDir r = true) →
      ∃ l out, get_performer_paths_from fs roots = (Except.ok l, out) := by
  intro roots
  induction roots with
  | nil => intro h; exact ⟨[], [], rfl⟩
  | cons r rest ih =>
    intro h
    have hr : fs.isDir r = true := h r (by simp)
    obtain ⟨l, out, hfrom⟩ := ih (fun x hx => h x (by simp [hx]))
    have hsub : ∃ names out1, get_direct_subfolders fs r = (Except.ok names, out1) := by
      unfold get_direct_subfolders
      simp only [hr, Bool.not_true, Bool.false_eq_true, if_false]
      cases hl : fs.listdir r with
      | ok names => exact ⟨_, _, rfl⟩
      | error e =>
        cases e with
        | permission => exact ⟨[], _, rfl⟩
        | os msg => exact ⟨[], _, rfl⟩
    obtain ⟨names, out1, hsub⟩ := hsub
    exact ⟨names.map (fun n => PEntry.mk r n) ++ l, out1 ++ out, by
      simp only [get_performer_paths_from, hsub, hfrom]⟩

/-- C5: `get_performer_paths` processes the configured roots in order,
pairs each listed subfolder name with its root to form a full path, and
concatenates everything into one flat list with no deduplication; on the
two-root example it yields exactly `R1/Alice` and `R2/Bob`. -/
theorem C5_collect_all_flat :
    (∀ (fs : FS) (sel : PerformerSelector) (l : List PEntry),
      (get_performer_paths fs sel).1 = Except.ok l →
      l = sel.performers_root_directories.flatMap (fun root_dir =>
        (subfolders_of fs root_dir).map (fun n => PEntry.mk root_dir n))) ∧
    get_performer_paths exampleFS (PerformerSelector.init ["R1", "R2"] true)
      = (Except.ok [PEntry.mk "R1" "Alice", PEntry.mk "R2" "Bob"], []) ∧
    (PEntry.mk "R1" "Alice").toStr = "R1/Alice" ∧
    (PEntry.mk "R2" "Bob").toStr = "R2/Bob" := by
  refine ⟨?_, by rfl, rfl, rfl⟩
  intro fs sel l h
  exact get_performer_paths_from_ok fs sel.performers_root_directories l h

/-- Witness for C5 at the two-root example filesystem. -/
theorem C5_collect_all_flat_witness :
    [PEntry.mk "R1" "Alice", PEntry.mk "R2" "Bob"] =
      (PerformerSelector.init ["R1", "R2"] true).performers_root_directories.flatMap
        (fun root_dir =>
          (subfolders_of exampleFS root_dir).map (fun n => PEntry.mk root_dir n)) :=
  C5_collect_all_flat.1 exampleFS (PerformerSelector.init ["R1", "R2"] true)
    [PEntry.mk "R1" "Alice", PEntry.mk "R2" "Bob"] (by rfl)

/-- C1 counterexample: for a root that is not a directory,
`_get_direct_subfolders` does not print-and-return-empty; the `ValueError`
escapes it (the `except` clauses catch only `PermissionError` and
`OSError`) and propagates out of `get_performer_paths`. -/
theorem C1_counterexample :
    get_direct_subfolders notDirFS "badroot"
      = (Except.error (PyExc.valueError
          "The provided path 'badroot' is not a valid directory."), []) ∧
    (get_performer_paths notDirFS (PerformerSelector.init ["badroot"] true)).1
      = Except.error (PyExc.valueError
          "The provided path 'badroot' is not a valid directory.") := by
  constructor <;> rfl

/-- C1 amended: for roots hitting `PermissionError` or another `OSError`
during listing, `_get_direct_subfolders` prints one error message and
returns the empty list, `get_performer_paths` completes normally, and the
erroring root contributes no entries; but for a root that is not a
directory, `_get_direct_subfolders` raises `ValueError`, which propagates
to `get_performer_paths` and its caller. -/
theorem C1_amended_error_handling :
    (∀ (fs : FS) (root : String), fs.isDir root = false →
      get_direct_subfolders fs root
        = (Except.error (PyExc.valueError
            ("The provided path '" ++ root ++ "' is not a valid directory.")), [])) ∧
    (∀ (fs : FS) (root : String), fs.isDir root = true →
      fs.listdir root = Except.error OSErrKind.permission →
      get_direct_subfolders fs root
        = (Except.ok [], ["Permission error accessing '" ++ root ++ "'"])) ∧
    (∀ (fs : FS) (root msg : String), fs.isDir root = true →
      fs.listdir root = Except.error (OSErrKind.os msg) →
      get_direct_subfolders fs root
        = (Except.ok [], ["Error accessing '" ++ root ++ "': " ++ msg])) ∧
    (∀ (fs : FS) (sel : PerformerSelector),
      (∀ r ∈ sel.performers_root_directories, fs.isDir r = true) →
      ∃ l out, get_performer_paths fs sel = (Except.ok l, out) ∧
        ∀ r ∈ sel.performers_root_directories,
          (∃ err, fs.listdir r = Except.error err) → ∀ e ∈ l, e.root ≠ r) := by
  refine ⟨?_, ?_, ?_, ?_⟩
  · intro fs root h
    unfold get_direct_subfolders
    simp [h]
  · intro fs root h hl
    unfold get_direct_subfolders
    simp [h, hl]
  · intro fs root msg h hl
    unfold get_direct_subfolders
    simp [h, hl]
  · intro fs sel hdirs
    obtain ⟨l, out, hfrom⟩ := from_ok_of_isDir fs sel.performers_root_directories hdirs
    refine ⟨l, out, hfrom, ?_⟩
    intro r hrmem herr e hel heq
    obtain ⟨err, herr2⟩ := herr
    have hchar := get_performer_paths_from_ok fs sel.performers_root_directories l
      (by rw [hfrom])
    rw [hchar] at hel
    rw [List.mem_flatMap] at hel
    obtain ⟨rd, hrd, hmem⟩ := hel
    rw [List.mem_map] at hmem
    obtain ⟨n, hn, hen⟩ := hmem
    have hroot : e.root = rd := by rw [← hen]
    have hrdr : rd = r := by rw [← hroot]; exact heq
    subst hrdr
    have hsub := subfolders_of_error fs rd (hdirs rd hrmem) err herr2
    rw [hsub] at hn
    simp at hn

/-- Witness for the amended C1: a permission-failing root is soft, a
non-directory root raises. -/
theorem C1_amended_error_handling_witness :
    get_direct_subfolders permFS "P"
      = (Except.ok [], ["Permission error accessing 'P'"]) ∧
    get_direct_subfolders notDirFS "badroot"
      = (Except.error (PyExc.valueError
          "The provided path 'badroot' is not a valid directory."), []) :=
  ⟨C1_amended_error_handling.2.1 permFS "P" (by rfl) (by rfl),
   C1_amended_error_handling.1 notDirFS "badroot" (by rfl)⟩

/-- C6: an entry of a scanned root is kept iff it is a directory and the
best-effort link-target read (`os.readlink`) fails: an entry whose
link-target read succeeds is excluded even if it resolves to a directory,
and an entry whose read fails is treated as a real directory.  (On a real
OS a successful `readlink` never returns the empty target, which is the
stated side condition.) -/
theorem C6_junction_filter :
    ∀ (fs : FS) (root : String) (names res : List String) (name : String),
      (∀ p t, fs.readlink p = some t → t ≠ "") →
      fs.isDir root = true →
      fs.listdir root = Except.ok names →
      (get_direct_subfolders fs root).1 = Except.ok res →
      (name ∈ res ↔ (name ∈ names ∧ fs.isDir (pathJoin root name) = true ∧
        fs.readlink (pathJoin root name) = none)) := by
  intro fs root names res name hlink hd hls hres
  rw [get_direct_subfolders_ok fs root hd names hls] at hres
  simp only [Except.ok.injEq] at hres
  rw [← hres, List.mem_filter]
  constructor
  · rintro ⟨hmem, hpred⟩
    rw [Bool.and_eq_true] at hpred
    refine ⟨hmem, hpred.1, ?_⟩
    cases hrl : fs.readlink (pathJoin root name) with
    | none => rfl
    | some t =>
      exfalso
      have ht : t ≠ "" := hlink _ t hrl
      have hj : is_junction fs (pathJoin root name) = true := by
        unfold is_junction
        rw [hrl]
        simp [isEmpty_false_of_ne t ht]
      rw [hj] at hpred
      simp at hpred
  · rintro ⟨hmem, hdir, hnone⟩
    refine ⟨hmem, ?_⟩
    have hj : is_junction fs (pathJoin root name) = false := by
      unfold is_junction
      rw [hnone]
    rw [Bool.and_eq_true, hdir, hj]
    exact ⟨rfl, rfl⟩

/-- Witness for C6 on `junctionFS`: entry `B` resolves to a directory but
its link-target read succeeds, so it is excluded from the scan result. -/
theorem C6_junction_filter_witness :
    ("B" ∈ (["A"] : List String) ↔
      ("B" ∈ (["A", "B", "C"] : List String) ∧
        junctionFS.isDir (pathJoin "R" "B") = true ∧
        junctionFS.readlink (pathJoin "R" "B") = none)) :=
  C6_junction_filter junctionFS "R" ["A", "B", "C"] ["A"] "B"
    (by
      intro p t h
      by_cases hp : p = "R/B"
      · subst hp
        simp [junctionFS] at h
        subst h
        decide
      · simp [junctionFS, hp] at h)
    (by rfl) (by rfl) (by rfl)

/-- C7: when the first interaction submits a name whose trimmed form is
valid, bound in the dict, non-empty, and whose path still exists as a
directory, `choose_performer` returns — the full joined path when
`return_full_path` is true, the base name when it is false — printing
nothing. -/
theorem C7_accept_return_mode :
    ∀ (fs : FS) (sel : PerformerSelector) (performers_paths : List PEntry)
      (s p : String) (rest : List UserEvent),
      (is_valid_performer_name sel (pyStrip s)).1 = true →
      dictGet (buildPerformersDict performers_paths) (pyStrip s) = some p →
      p ≠ "" →
      fs.pathExists p = true →
      fs.isDir p = true →
      choose_performer fs sel performers_paths (UserEvent.input s :: rest)
        = (Outcome.accepted (if sel.return_full_path then p else pathName p), []) := by
  intro fs sel paths s p rest hvalid hget hp hex hdir
  unfold choose_performer choose_loop
  have hit : choose_iteration fs sel (buildPerformersDict paths) (UserEvent.input s)
      = (IterResult.ret (if sel.return_full_path then p else pathName p), []) := by
    simp only [choose_iteration]
    cases hv : is_valid_performer_name sel (pyStrip s) with
    | mk b msgs =>
      rw [hv] at hvalid
      simp only at hvalid
      subst hvalid
      simp [hget, isEmpty_false_of_ne p hp, hex, hdir]
  rw [hit]

/-- Witness for C7 on the two-root example filesystem. -/
theorem C7_accept_return_mode_witness :
    choose_performer exampleFS (PerformerSelector.init ["R1", "R2"] true)
        [PEntry.mk "R1" "Alice", PEntry.mk "R2" "Bob"] [UserEvent.input " Alice "]
      = (Outcome.accepted "R1/Alice", []) := by
  have h := C7_accept_return_mode exampleFS (PerformerSelector.init ["R1", "R2"] true)
    [PEntry.mk "R1" "Alice", PEntry.mk "R2" "Bob"] " Alice " "R1/Alice" []
    (by decide) (by decide) (by decide) (by rfl) (by rfl)
  exact h

/-- C8: the interactive loop ends only by returning (`Accepted`) or by
`exit(1)` after an interrupt (`Cancelled`).  Every rejected submission —
valid-but-unknown name, stale directory, or invalid name — prints its
specific message and re-prompts; any number of rejected submissions leaves
the loop's final outcome unchanged (no maximum retry count); an interrupt
prints the exit notice and exits with status 1. -/
theorem C8_loop_unbounded :
    ∀ (fs : FS) (sel : PerformerSelector) (d : List (String × String)),
      (∀ s : String, (is_valid_performer_name sel (pyStrip s)).1 = true →
        dictGet d (pyStrip s) = none →
        choose_iteration fs sel d (UserEvent.input s)
          = (IterResult.again,
             ["Error: Invalid choice. Please choose a valid performer."])) ∧
      (∀ s p : String, (is_valid_performer_name sel (pyStrip s)).1 = true →
        dictGet d (pyStrip s) = some p → p ≠ "" →
        (fs.pathExists p && fs.isDir p) = false →
        choose_iteration fs sel d (UserEvent.input s)
          = (IterResult.again,
             ["Error: The selected performer directory does not exist."])) ∧
      (∀ (s : String) (msgs : List String),
        is_valid_performer_name sel (pyStrip s) = (false, msgs) →
        choose_iteration fs sel d (UserEvent.input s) = (IterResult.again, msgs)) ∧
      (∀ (events rest : List UserEvent),
        (∀ ev ∈ events, (choose_iteration fs sel d ev).1 = IterResult.again) →
        (choose_loop fs sel d (events ++ rest)).1 = (choose_loop fs sel d rest).1) ∧
      (∀ rest : List UserEvent,
        choose_loop fs sel d (UserEvent.interrupt :: rest)
          = (Outcome.exited 1, ["\nExiting..."])) := by
  intro fs sel d
  refine ⟨?_, ?_, ?_, ?_, ?_⟩
  · intro s hval hnone
    simp only [choose_iteration]
    cases hv : is_valid_performer_name sel (pyStrip s) with
    | mk b msgs =>
      rw [hv] at hval
      simp only at hval
      subst hval
      simp [hnone]
  · intro s p hval hget hp hstale
    simp only [choose_iteration]
    cases hv : is_valid_performer_name sel (pyStrip s) with
    | mk b msgs =>
      rw [hv] at hval
      simp only at hval
      subst hval
      simp [hget, isEmpty_false_of_ne p hp, hstale]
  · intro s msgs hv
    simp only [choose_iteration, hv]
  · intro events rest h
    induction events with
    | nil => simp
    | cons ev tl ih =>
      have hev := h ev (by simp)
      have htl : ∀ e ∈ tl, (choose_iteration fs sel d e).1 = IterResult.again :=
        fun e he => h e (by simp [he])
      cases hit : choose_iteration fs sel d ev with
      | mk rres out =>
        rw [hit] at hev
        simp only at hev
        subst hev
        simp only [List.cons_append, choose_loop, hit]
        cases hl : choose_loop fs sel d (tl ++ rest) with
        | mk o out2 =>
          have := ih htl
          rw [hl] at this
          simpa using this
  · intro rest
    rfl

/-- Witness for C8: an unknown name and a stale directory each re-prompt
with their message; an interrupt exits with status 1. -/
theorem C8_loop_unbounded_witness :
    choose_iteration exampleFS (PerformerSelector.init ["R1", "R2"] true)
        (buildPerformersDict [PEntry.mk "R1" "Alice", PEntry.mk "R2" "Ghost"])
        (UserEvent.input "zzz")
      = (IterResult.again,
         ["Error: Invalid choice. Please choose a valid performer."]) ∧
    choose_iteration exampleFS (PerformerSelector.init ["R1", "R2"] true)
        (buildPerformersDict [PEntry.mk "R1" "Alice", PEntry.mk "R2" "Ghost"])
        (UserEvent.input "Ghost")
      = (IterResult.again,
         ["Error: The selected performer directory does not exist."]) ∧
    choose_loop exampleFS (PerformerSelector.init ["R1", "R2"] true)
        (buildPerformersDict [PEntry.mk "R1" "Alice", PEntry.mk "R2" "Ghost"])
        [UserEvent.interrupt]
      = (Outcome.exited 1, ["\nExiting..."]) :=
  ⟨(C8_loop_unbounded exampleFS (PerformerSelector.init ["R1", "R2"] true)
      (buildPerformersDict [PEntry.mk "R1" "Alice", PEntry.mk "R2" "Ghost"])).1
      "zzz" (by decide) (by decide),
   (C8_loop_unbounded exampleFS (PerformerSelector.init ["R1", "R2"] true)
      (buildPerformersDict [PEntry.mk "R1" "Alice", PEntry.mk "R2" "Ghost"])).2.1
      "Ghost" "R2/Ghost" (by decide) (by decide) (by decide) (by rfl),
   (C8_loop_unbounded exampleFS (PerformerSelector.init ["R1", "R2"] true)
      (buildPerformersDict [PEntry.mk "R1" "Alice", PEntry.mk "R2" "Ghost"])).2.2.2.2 []⟩

/-- The `takeWhile` of a list swallows a prefix that satisfies the predicate and stops at
the first failing element. -/
theorem takeWhile_all_append {α : Type} (p : α → Bool) (l₁ l₂ : List α) (c : α)
    (h₁ : ∀ a ∈ l₁, p a = true) (hc : p c = false) :
    (l₁ ++ c :: l₂).takeWhile p = l₁ := by
  induction l₁ with
  | nil => simp [List.takeWhile_cons, hc]
  | cons a t ih =>
    have ha := h₁ a (by simp)
    simp [List.takeWhile_cons, ha, ih (fun x hx => h₁ x (by simp [hx]))]

/-- Computing `Path(root, name).name` recovers `name` when `name` is a plain
component (no separator). -/
theorem pathName_pathJoin (r n : String)
    (hsl : n.toList.all (fun c => c ≠ '/') = true) :
    pathName (pathJoin r n) = n := by
  unfold pathName pathJoin
  have hdata : (r ++ "/" ++ n).toList = r.toList ++ '/' :: n.toList := by
    show (r.toList ++ "/".toList) ++ n.toList = r.toList ++ '/' :: n.toList
    rw [List.append_assoc]
    rfl
  rw [hdata, List.reverse_append, List.reverse_cons, List.append_assoc,
    List.singleton_append]
  rw [takeWhile_all_append _ _ _ '/'
    (fun a ha => List.all_eq_true.1 hsl a (List.mem_reverse.1 ha))
    (by decide)]
  rw [List.reverse_reverse]
  rfl

/-- Inversion of one loop pass that returns: the event was a submission
whose trimmed text is bound in the dict to a truthy path, and the returned
value is that path or its base name according to `return_full_path`. -/
theorem choose_iteration_ret_inv (fs : FS) (sel : PerformerSelector)
    (d : List (String × String)) (ev : UserEvent) (v : String) (out : List String)
    (h : choose_iteration fs sel d ev = (IterResult.ret v, out)) :
    ∃ s p, ev = UserEvent.input s ∧ dictGet d (pyStrip s) = some p ∧ p ≠ "" ∧
      v = (if sel.return_full_path then p else pathName p) := by
  cases ev with
  | interrupt => simp [choose_iteration] at h
  | input s =>
    refine ⟨s, ?_⟩
    simp only [choose_iteration] at h
    cases hv : is_valid_performer_name sel (pyStrip s) with
    | mk b msgs =>
      rw [hv] at h
      cases b with
      | false => simp at h
      | true =>
        cases hg : dictGet d (pyStrip s) with
        | none => rw [hg] at h; simp at h
        | some p =>
          rw [hg] at h
          by_cases hpe : p.isEmpty = true
          · simp [hpe] at h
          · by_cases hed : (fs.pathExists p && fs.isDir p) = true
            · simp only [hpe, hed] at h
              simp at h
              refine ⟨p, rfl, rfl, ?_, h.1.symm⟩
              intro hc
              subst hc
              exact hpe rfl
            · simp only [hpe] at h
              simp [hed] at h

/-- Inversion of an accepting loop run: some submitted event resolved in
the dict and produced the returned value. -/
theorem choose_loop_accepted_inv (fs : FS) (sel : PerformerSelector)
    (d : List (String × String)) :
    ∀ (events : List UserEvent) (ret : String),
      (choose_loop fs sel d events).1 = Outcome.accepted ret →
      ∃ s p, UserEvent.input s ∈ events ∧ dictGet d (pyStrip s) = some p ∧
        p ≠ "" ∧ ret = (if sel.return_full_path then p else pathName p) := by
  intro events
  induction events with
  | nil => intro ret h; simp [choose_loop] at h
  | cons ev rest ih =>
    intro ret h
    cases hit : choose_iteration fs sel d ev with
    | mk rres out =>
      cases rres with
      | ret v =>
        simp only [choose_loop, hit] at h
        simp at h
        obtain ⟨s, p, hev, hg, hp, hveq⟩ :=
          choose_iteration_ret_inv fs sel d ev v out hit
        subst h
        exact ⟨s, p, by rw [hev]; exact List.mem_cons_self _ _, hg, hp, hveq⟩
      | exit1 =>
        simp only [choose_loop, hit] at h
        simp at h
      | again =>
        simp only [choose_loop, hit] at h
        cases hl : choose_loop fs sel d rest with
        | mk o out2 =>
          rw [hl] at h
          simp only at h
          obtain ⟨s, p, hmem, hg, hp, hveq⟩ := ih ret (by rw [hl]; exact h)
          exact ⟨s, p, List.mem_cons_of_mem ev hmem, hg, hp, hveq⟩

/-- C9: a normal return of `choose_performer` always comes from one of the
input entries: with `return_full_path` true the returned string is that
entry's full path, otherwise it is the entry's base name, which is also the
trimmed text of one of the submitted inputs.  (The entries' base names are
assumed to be genuine path components: non-empty, no separator.) -/
theorem C9_result_from_entries :
    ∀ (fs : FS) (sel : PerformerSelector) (performers_paths : List PEntry)
      (events : List UserEvent) (ret : String),
      (∀ e ∈ performers_paths,
        e.name ≠ "" ∧ e.name.toList.all (fun c => c ≠ '/') = true) →
      (choose_performer fs sel performers_paths events).1 = Outcome.accepted ret →
      ∃ e, e ∈ performers_paths ∧
        (sel.return_full_path = true → ret = e.toStr) ∧
        (sel.return_full_path = false → ret = e.name) ∧
        ∃ s, UserEvent.input s ∈ events ∧ pyStrip s = e.name := by
  intro fs sel paths events ret hwf hacc
  obtain ⟨s, p, hmem, hget, hp, hret⟩ :=
    choose_loop_accepted_inv fs sel (buildPerformersDict paths) events ret hacc
  rw [dictGet_build] at hget
  cases hgl : (paths.filter (fun e2 => e2.name == pyStrip s)).getLast? with
  | none => rw [hgl] at hget; simp at hget
  | some e =>
    rw [hgl] at hget
    have hpe : e.toStr = p := by simpa using hget
    have hef : e ∈ paths.filter (fun e2 => e2.name == pyStrip s) :=
      List.mem_of_mem_getLast? hgl
    rw [List.mem_filter] at hef
    obtain ⟨hepaths, hename⟩ := hef
    have hename2 : e.name = pyStrip s := by simpa using hename
    refine ⟨e, hepaths, ?_, ?_, s, hmem, hename2.symm⟩
    · intro hrfp
      rw [hret, if_pos hrfp, ← hpe]
    · intro hrfp
      rw [hret, if_neg (by rw [hrfp]; exact Bool.false_ne_true), ← hpe]
      exact pathName_pathJoin e.root e.name (hwf e hepaths).2

/-- Witness for C9 on the two-root example filesystem. -/
theorem C9_result_from_entries_witness :
    ∃ e, e ∈ [PEntry.mk "R1" "Alice", PEntry.mk "R2" "Bob"] ∧
      ((PerformerSelector.init ["R1", "R2"] true).return_full_path = true →
        "R1/Alice" = e.toStr) ∧
      ((PerformerSelector.init ["R1", "R2"] true).return_full_path = false →
        "R1/Alice" = e.name) ∧
      ∃ s, UserEvent.input s ∈ [UserEvent.input " Alice "] ∧ pyStrip s = e.name :=
  C9_result_from_entries exampleFS (PerformerSelector.init ["R1", "R2"] true)
    [PEntry.mk "R1" "Alice", PEntry.mk "R2" "Bob"] [UserEvent.input " Alice "]
    "R1/Alice" (by decide) (by rfl)

/-- C10: neither `get_performer_paths` nor `choose_performer` mutates the
selector's configuration: the post-call state equals the constructed state,
field by field.  (The source methods contain no attribute assignment, so
the state-threaded embedding passes the selector through unchanged.) -/
theorem C10_no_mutation :
    ∀ (roots : List String) (rfp : Bool) (fs : FS) (paths : List PEntry)
      (events : List UserEvent),
      (get_performer_paths_st (PerformerSelector.init roots rfp) fs).2
        = PerformerSelector.init roots rfp ∧
      (choose_performer_st (PerformerSelector.init roots rfp) fs paths events).2
        = PerformerSelector.init roots rfp ∧
      ((get_performer_paths_st (PerformerSelector.init roots rfp) fs).2).performers_root_directories
        = roots ∧
      ((get_performer_paths_st (PerformerSelector.init roots rfp) fs).2).return_full_path
        = rfp ∧
      ((choose_performer_st (PerformerSelector.init roots rfp) fs paths events).2).allowed_characters
        = ascii_letters ++ ascii_digits ++ " .()_[]-".toList ∧
      ((choose_performer_st (PerformerSelector.init roots rfp) fs paths events).2).performer_length_limit
        = 100 := by
  intro roots rfp fs paths events
  exact ⟨rfl, rfl, rfl, rfl, rfl, rfl⟩

end PerformerSel
